import Mathlib

/-!
Verification of the A2A task/agent orchestration subsystem of golfergeek-ai.

The definitions below are a shallow embedding of the TypeScript sources:
  * `apps/api/src/agents/a2a/types/a2a.types.ts` (data model),
  * `apps/api/src/agents/a2a/shared/task-store.service.ts` (TaskStoreService),
  * the A2A agent base service (`A2AAgentBaseService`: handleTaskSend,
    handleTaskCancel, updateTaskStatusToWorking, updateTaskStatusToFailed),
  * the A2A controller base (`A2AControllerBase.processJsonRpcRequest`),
  * `agent-registry.service.ts` (AgentRegistryService),
  * `services/openai.service.ts` (OpenAIService.selectAgentForQuery),
  * the orchestrator service (`OrchestratorService.findBestAgentForQuery`).

Conventions of the embedding:
  * JavaScript `Map` objects are modelled as insertion-ordered association
    lists (`List (String × α)`) with `Map.set` overwrite semantics.
  * `Date().toISOString()` timestamps are threaded in as explicit `String`
    arguments (`now`): each operation that reads the clock takes one.
  * `Record<string, any>` metadata payloads are modelled opaquely as
    key/value string lists; nothing in the verified code inspects them.
  * Fallible asynchronous collaborators (the OpenAI completion call, an
    agent's `processMessage`) are passed in as explicit `Except` values /
    functions, so the code under verification stays a pure function of its
    inputs.
  * Thrown JavaScript values are modelled by `ThrownError`; `Promise`
    rejection of a handler is an `Except.error` result.
-/

namespace A2A

/-- `enum TaskState` from a2a.types.ts. -/
inductive TaskState
  | unknown
  | submitted
  | working
  | completed
  | failed
  | canceled
  | inputRequired
deriving DecidableEq, Repr

/-- Opaque model of a `Record<string, any>` metadata payload. -/
abbrev Metadata := List (String × String)

/-- `interface FileContent` from a2a.types.ts. -/
structure FileContent where
  name : Option String := none
  mimeType : Option String := none
  bytes : Option String := none
  uri : Option String := none
deriving DecidableEq, Repr

/-- `type Part = TextPart | FilePart | DataPart` from a2a.types.ts
(each variant carries its payload and optional metadata). -/
inductive Part
  | text (text : String) (metadata : Option Metadata := none)
  | file (file : FileContent) (metadata : Option Metadata := none)
  | data (data : Metadata) (metadata : Option Metadata := none)
deriving DecidableEq, Repr

/-- The `role` field of a Message: `'user' | 'agent' | 'system'`. -/
inductive Role
  | user
  | agent
  | system
deriving DecidableEq, Repr

/-- `interface Message` from a2a.types.ts. -/
structure Message where
  role : Role
  parts : List Part
  metadata : Option Metadata := none
deriving DecidableEq, Repr

/-- `interface TaskStatus` from a2a.types.ts (`timestamp` is an ISO-8601
string; the embedding keeps it as the string handed in by the caller). -/
structure TaskStatus where
  state : TaskState
  message : Option Message := none
  timestamp : String
deriving DecidableEq, Repr

/-- `interface Artifact` from a2a.types.ts. -/
structure Artifact where
  name : Option String := none
  description : Option String := none
  parts : List Part
  index : Option Nat := none
  append : Option Bool := none
  lastChunk : Option Bool := none
  metadata : Option Metadata := none
deriving DecidableEq, Repr

/-- `interface Task` from a2a.types.ts.  In the interface `history` and
`artifacts` are optional, but every Task constructed by the
TaskStoreService initialises both (`history: history`, `artifacts: []`),
so the embedding carries them as plain lists. -/
structure Task where
  id : String
  sessionId : Option String := none
  status : TaskStatus
  history : List Message := []
  artifacts : List Artifact := []
  metadata : Option Metadata := none
deriving DecidableEq, Repr

/-- `interface TaskAndHistory` from task-store.service.ts. -/
structure TaskAndHistory where
  task : Task
  history : List Message
deriving DecidableEq, Repr

/-- `interface TaskSendParams` from a2a.types.ts (fields the protocol layer
reads; `acceptedOutputModes`/`pushNotification` are never consumed). -/
structure TaskSendParams where
  id : String
  sessionId : Option String := none
  message : Message
  metadata : Option Metadata := none
deriving DecidableEq, Repr

/-! ### JavaScript `Map` as an insertion-ordered association list -/

/-- `Map.get`: the value stored under `k`, if any. -/
def mapGet (m : List (String × α)) (k : String) : Option α :=
  match m with
  | [] => none
  | (k2, v) :: rest => if k2 = k then some v else mapGet rest k

/-- `Map.has`. -/
def mapHas (m : List (String × α)) (k : String) : Bool :=
  (mapGet m k).isSome

/-- `Map.set`: overwrite in place when the key exists (keeping insertion
order), otherwise append. -/
def mapSet (m : List (String × α)) (k : String) (v : α) : List (String × α) :=
  match m with
  | [] => [(k, v)]
  | (k2, w) :: rest =>
    if k2 = k then (k2, v) :: rest else (k2, w) :: mapSet rest k v

/-- `Map.delete`: remove the entry stored under `k`, if any. -/
def mapDelete (m : List (String × α)) (k : String) : List (String × α) :=
  match m with
  | [] => []
  | (k2, v) :: rest =>
    if k2 = k then rest else (k2, v) :: mapDelete rest k

/-- A map whose keys are pairwise distinct; every `Map` reachable through
`mapSet`/`mapDelete` from the empty map satisfies this (matching the
unique-key semantics of a JavaScript `Map`). -/
def keysNodup (m : List (String × α)) : Prop := (m.map Prod.fst).Nodup

/-! ### TaskStoreService (task-store.service.ts)

The service's single piece of state is `private tasks: Map<string,
TaskAndHistory>`.  Each method below returns the new store paired with the
method's return value.  History and artifact arrays are carried by value:
the only in-place mutation of an array that is also reachable from a
previously returned object is `task.artifacts.push(artifact)` inside
`addTaskArtifact` (the `history.push` in `updateTaskStatus` happens on a
freshly spread copy), and that aliasing effect is modelled separately in
the `HeapModel` namespace below. -/

/-- The `tasks` map of a `TaskStoreService` instance. -/
structure TaskStore where
  tasks : List (String × TaskAndHistory)
deriving DecidableEq, Repr

/-- A freshly constructed `TaskStoreService` (`tasks = new Map()`). -/
def emptyStore : TaskStore := ⟨[]⟩

/-- The `TaskAndHistory` record built by the fresh-task branch of
`createOrGetTask` (named here so lemmas can refer to it; the builder
mirrors lines 42-61 of task-store.service.ts). -/
def newTaskData (taskId : String) (message : Option Message)
    (sessionId : Option String) (metadata : Option Metadata)
    (now : String) : TaskAndHistory :=
  let history : List Message :=
    match message with
    | some m => [m]
    | none => []
  { task :=
      { id := taskId
        sessionId := sessionId
        status :=
          { state := TaskState.submitted
            timestamp := now
            message := message }
        history := history
        artifacts := []
        metadata := metadata }
    history := history }

/-- `createOrGetTask(taskId, message?, sessionId?, metadata?)`:
returns the stored `TaskAndHistory` unchanged when `taskId` is present,
otherwise builds a new Task in state `submitted` (with
`history = [message]` or `[]`, `artifacts = []`, `timestamp = now`) and
stores it.  `now` is the `new Date().toISOString()` value. -/
def createOrGetTask (s : TaskStore) (taskId : String)
    (message : Option Message) (sessionId : Option String)
    (metadata : Option Metadata) (now : String) :
    TaskStore × TaskAndHistory :=
  match mapGet s.tasks taskId with
  | some existing => (s, existing)
  | none =>
    let history : List Message :=
      match message with
      | some m => [m]
      | none => []
    let task : Task :=
      { id := taskId
        sessionId := sessionId
        status :=
          { state := TaskState.submitted
            timestamp := now
            message := message }
        history := history
        artifacts := []
        metadata := metadata }
    let taskData : TaskAndHistory := { task := task, history := history }
    (⟨mapSet s.tasks taskId taskData⟩, taskData)

/-- `getTask(taskId)`: lookup, `null` when absent. -/
def getTask (s : TaskStore) (taskId : String) : Option TaskAndHistory :=
  mapGet s.tasks taskId

/-- `updateTaskStatus(taskId, state, message?)`: soft-fails with `null` on
an unknown task; otherwise spreads the stored task, installs a new status
object (`timestamp = now`, keeping the previous status message when none
is supplied — `message || task.status.message`), appends a supplied
message to the (copied) history, and stores the updated record. -/
def updateTaskStatus (s : TaskStore) (taskId : String) (state : TaskState)
    (message : Option Message) (now : String) :
    TaskStore × Option TaskAndHistory :=
  match getTask s taskId with
  | none => (s, none)
  | some taskData =>
    let status : TaskStatus :=
      { state := state
        timestamp := now
        message :=
          match message with
          | some m => some m
          | none => taskData.task.status.message }
    let (task, history) :=
      match message with
      | some m =>
        let h := taskData.history ++ [m]
        ({ taskData.task with status := status, history := h }, h)
      | none => ({ taskData.task with status := status }, taskData.history)
    let updated : TaskAndHistory := { task := task, history := history }
    (⟨mapSet s.tasks taskId updated⟩, some updated)

/-- `addTaskArtifact(taskId, artifact)`: `null` on an unknown task;
otherwise appends the artifact to the task's artifacts array and stores
the record (value-level view; the aliasing of the artifacts array is
treated in `HeapModel`). -/
def addTaskArtifact (s : TaskStore) (taskId : String) (artifact : Artifact) :
    TaskStore × Option TaskAndHistory :=
  match getTask s taskId with
  | none => (s, none)
  | some taskData =>
    let task := { taskData.task with
      artifacts := taskData.task.artifacts ++ [artifact] }
    let updated : TaskAndHistory := { taskData with task := task }
    (⟨mapSet s.tasks taskId updated⟩, some updated)

/-- `deleteTask(taskId)`: removes the entry, reporting whether it existed. -/
def deleteTask (s : TaskStore) (taskId : String) : TaskStore × Bool :=
  if mapHas s.tasks taskId then
    (⟨mapDelete s.tasks taskId⟩, true)
  else
    (s, false)

/-- `listTaskIds()`. -/
def listTaskIds (s : TaskStore) : List String := s.tasks.map Prod.fst

/-! ### A2AAgentBaseService (the agent protocol layer)

`handleTaskSend` / `handleTaskGet` / `handleTaskCancel` and the protected
helpers `updateTaskStatusToWorking` / `updateTaskStatusToFailed` /
`createTextPart`.  The subclass hook `processMessage` is passed in as a
function returning `Except ThrownError Message` (a rejected promise is an
`Except.error`).  The clock is threaded as explicit `now*` arguments, one
per `updateTaskStatus` call site. -/

/-- A JavaScript value thrown inside the protocol layer: either an `Error`
instance (identified by its `.message`), or the plain `JSONRPCError`
object built by `createError(code, message)` (which is *not* an `Error`
instance). -/
inductive ThrownError
  | jsError (message : String)
  | rpcError (code : Int) (message : String)
deriving DecidableEq, Repr

/-- `error instanceof Error ? error.message : String(error)` — the text
the protocol layer extracts from a thrown value; `String` applied to a
plain object (the `createError` case) yields `"[object Object]"`. -/
def thrownText : ThrownError → String
  | ThrownError.jsError message => message
  | ThrownError.rpcError _ _ => "[object Object]"

/-- `createTextPart(text)`. -/
def createTextPart (text : String) : Part := Part.text text none

/-- The synthetic message of `updateTaskStatusToWorking`. -/
def workingMessage : Message :=
  { role := Role.agent, parts := [createTextPart "Processing your request..."] }

/-- `updateTaskStatusToWorking(taskId)`. -/
def updateTaskStatusToWorking (s : TaskStore) (taskId : String)
    (now : String) : TaskStore × Option TaskAndHistory :=
  updateTaskStatus s taskId TaskState.working (some workingMessage) now

/-- The synthesized failure message of `updateTaskStatusToFailed`. -/
def failedMessage (error : ThrownError) : Message :=
  { role := Role.agent
    parts := [createTextPart ("Task failed: " ++ thrownText error)] }

/-- `updateTaskStatusToFailed(taskId, error)`. -/
def updateTaskStatusToFailed (s : TaskStore) (taskId : String)
    (error : ThrownError) (now : String) :
    TaskStore × Option TaskAndHistory :=
  updateTaskStatus s taskId TaskState.failed (some (failedMessage error)) now

/-- `handleTaskSend(params)`: create-or-get, transition to `working`,
run `processMessage`, transition to `completed` on success; any error
thrown inside the `try` block (including by `processMessage`) triggers
`updateTaskStatusToFailed` and is re-thrown (`Except.error`).
`nowCreate` / `nowWorking` / `nowFinal` are the successive
`new Date().toISOString()` readings (`nowFinal` for the terminal update,
and for the catch-handler update in the dead internal-error branches). -/
def handleTaskSend
    (process : Message → String → Option String → Except ThrownError Message)
    (s : TaskStore) (params : TaskSendParams)
    (nowCreate nowWorking nowFinal : String) :
    TaskStore × Except ThrownError Task :=
  let (s1, _taskData) := createOrGetTask s params.id (some params.message)
    params.sessionId params.metadata nowCreate
  let (s2, workingTaskData) := updateTaskStatusToWorking s1 params.id nowWorking
  match workingTaskData with
  | none =>
    let e := ThrownError.rpcError 404 ("Task " ++ params.id ++ " not found")
    let (s3, _) := updateTaskStatusToFailed s2 params.id e nowFinal
    (s3, Except.error e)
  | some _ =>
    match process params.message params.id params.sessionId with
    | Except.error e =>
      let (s3, _) := updateTaskStatusToFailed s2 params.id e nowFinal
      (s3, Except.error e)
    | Except.ok responseMessage =>
      let (s3, completedTaskData) := updateTaskStatus s2 params.id
        TaskState.completed (some responseMessage) nowFinal
      match completedTaskData with
      | none =>
        let e := ThrownError.rpcError (-32603)
          ("Failed to update task " ++ params.id)
        let (s4, _) := updateTaskStatusToFailed s3 params.id e nowFinal
        (s4, Except.error e)
      | some completed => (s3, Except.ok completed.task)

/-- `handleTaskGet(taskId)`. -/
def handleTaskGet (s : TaskStore) (taskId : String) : Option Task :=
  (getTask s taskId).map TaskAndHistory.task

/-- The result record of `handleTaskCancel`. -/
structure CancelResult where
  id : String
  canceled : Bool
deriving DecidableEq, Repr

/-- The `finalStates` list inside `handleTaskCancel`. -/
def finalStates : List TaskState :=
  [TaskState.completed, TaskState.failed, TaskState.canceled]

/-- `handleTaskCancel(taskId)`: `canceled:false` when the task is absent
or already in a final state; otherwise an `updateTaskStatus` to
`canceled` (with no message), reporting `canceled: !!updatedTaskData`. -/
def handleTaskCancel (s : TaskStore) (taskId : String) (now : String) :
    TaskStore × CancelResult :=
  match getTask s taskId with
  | none => (s, { id := taskId, canceled := false })
  | some taskData =>
    if finalStates.contains taskData.task.status.state then
      (s, { id := taskId, canceled := false })
    else
      let (s2, updatedTaskData) :=
        updateTaskStatus s taskId TaskState.canceled none now
      (s2, { id := taskId, canceled := updatedTaskData.isSome })

/-! ### A2AControllerBase: the tasks/send RPC wrapper

From the controller base (`processJsonRpcRequest` dispatching
`'tasks/send'` on a shape-valid request): a task returned by
`handleTaskSend` is wrapped as a JSON-RPC `result`; a thrown error lands
in the surrounding `catch`, which answers
`createErrorResponse(ErrorCode.InternalError, message, request.id)` where
`message` is `error.message` for `Error` instances and `String(error)`
otherwise (the thrown values modelled here are never `HttpException`s). -/

/-- `interface JSONRPCError` from a2a.types.ts. -/
structure JSONRPCError where
  code : Int
  message : String
  data : Option String := none
deriving DecidableEq, Repr

/-- `enum ErrorCode` from a2a.types.ts. -/
def ErrorCode.InternalError : Int := -32603

/-- A JSON-RPC response whose `result`, when present, is a Task. -/
structure JSONRPCResponse where
  jsonrpc : String
  id : String
  result : Option Task := none
  error : Option JSONRPCError := none
deriving DecidableEq, Repr

/-- The `'tasks/send'` dispatch of `processJsonRpcRequest` for a request
that passed `isValidJsonRpcRequest` and `isValidTaskSendParams`. -/
def taskSendRpc
    (process : Message → String → Option String → Except ThrownError Message)
    (s : TaskStore) (params : TaskSendParams) (requestId : String)
    (nowCreate nowWorking nowFinal : String) :
    TaskStore × JSONRPCResponse :=
  let (s2, outcome) := handleTaskSend process s params nowCreate nowWorking nowFinal
  match outcome with
  | Except.ok task =>
    (s2, { jsonrpc := "2.0", id := requestId, result := some task })
  | Except.error e =>
    (s2, { jsonrpc := "2.0", id := requestId
           error := some { code := ErrorCode.InternalError
                           message := thrownText e } })

/-! ### JavaScript string helpers

Structural models of `String.prototype.toLowerCase`, `includes` and
`trim` over the underlying character lists (the queries and agent names
involved are ASCII, where `Char.toLower` agrees with JavaScript). -/

/-- `s.toLowerCase()`. -/
def jsToLower (s : String) : String := ⟨s.data.map Char.toLower⟩

/-- Does `sub` occur as a contiguous run inside `l`? -/
def infixCheck (sub : List Char) : List Char → Bool
  | [] => sub.isEmpty
  | c :: rest => sub.isPrefixOf (c :: rest) || infixCheck sub rest

/-- `s.includes(sub)`. -/
def jsIncludes (s sub : String) : Bool := infixCheck sub.data s.data

/-- `s.trim()`. -/
def jsTrim (s : String) : String :=
  ⟨((s.data.dropWhile Char.isWhitespace).reverse.dropWhile
      Char.isWhitespace).reverse⟩

/-! ### AgentRegistryService (agent-registry.service.ts)

The registry's state is `private agents: Map<string, AgentCard>`.
`discoverAgents` / `registerAgentFromEndpoint` depend on live HTTP probes;
for the retry bound (`discoverAgentsWithRetry`) the outcome of each
discovery attempt is abstracted as an oracle (`DiscoveryOutcome`). -/

/-- `interface AgentCapabilities` from a2a.types.ts. -/
structure AgentCapabilities where
  streaming : Bool
  pushNotifications : Bool
  stateTransitionHistory : Bool
deriving DecidableEq, Repr

/-- `interface AgentSkill` from a2a.types.ts. -/
structure AgentSkill where
  name : String
  description : Option String := none
  inputModes : Option (List String) := none
  outputModes : Option (List String) := none
deriving DecidableEq, Repr

/-- `interface AgentCard` from a2a.types.ts (the fields the orchestration
core reads; the optional `provider` / `documentationUrl` /
`authentication` descriptors are never consumed by it). -/
structure AgentCard where
  name : String
  description : Option String := none
  url : String
  version : String
  capabilities : AgentCapabilities
  defaultInputModes : Option (List String) := none
  defaultOutputModes : Option (List String) := none
  skills : List AgentSkill
deriving DecidableEq, Repr

/-- The `agents` map of an `AgentRegistryService` instance. -/
structure AgentRegistry where
  agents : List (String × AgentCard)
deriving DecidableEq, Repr

/-- A freshly constructed registry (`agents = new Map()`). -/
def emptyRegistry : AgentRegistry := ⟨[]⟩

/-- `isValidAgentCard(card)`: on a value already of the `AgentCard` shape
the dynamic `typeof` checks hold by typing; the residual runtime content
is `Array.isArray(card.skills) && card.skills.length > 0`. -/
def isValidAgentCard (card : AgentCard) : Bool := !card.skills.isEmpty

/-- `addAgent(card)`: validates, then `agents.set(card.name, card)`;
throws `Error('Invalid agent card')` on a card failing validation. -/
def addAgent (r : AgentRegistry) (card : AgentCard) :
    Except String AgentRegistry :=
  if isValidAgentCard card then
    Except.ok ⟨mapSet r.agents card.name card⟩
  else
    Except.error "Invalid agent card"

/-- `getAgents()`: `Array.from(agents.values())`. -/
def getAgents (r : AgentRegistry) : List AgentCard := r.agents.map Prod.snd

/-- `getAgentByName(name)`. -/
def getAgentByName (r : AgentRegistry) (name : String) : Option AgentCard :=
  mapGet r.agents name

/-- The branch condition of `findAgentForQuery` — the fixed Vuex keyword
set matched against the lower-cased query. -/
def vuexQueryTest (query : String) : Bool :=
  let queryLower := jsToLower query
  jsIncludes queryLower "vuex" ||
    jsIncludes queryLower "state management" ||
    jsIncludes queryLower "store" ||
    (jsIncludes queryLower "state" &&
      (jsIncludes queryLower "manage" ||
        jsIncludes queryLower "management"))

/-- `findAgentForQuery(query)`: the deterministic keyword fallback
classifier of the registry — the named agent for a Vuex-flavoured query,
the Vue-Core-named agent by default. -/
def findAgentForQuery (r : AgentRegistry) (query : String) :
    Option AgentCard :=
  if vuexQueryTest query then
    getAgentByName r "Vuex A2A Agent"
  else
    getAgentByName r "Vue Core A2A Agent"

/-- `MAX_RETRIES` of the registry. -/
def MAX_RETRIES : Nat := 5

/-- The observable outcome of one `discoverAgents()` call: either it
resolved, leaving `agentsSize` entries in the registry, or it rejected. -/
inductive DiscoveryOutcome
  | ok (agentsSize : Nat)
  | error
deriving DecidableEq, Repr

/-- The number of `discoverAgents` calls performed by the cooperative
invocation chain of `discoverAgentsWithRetry(retryCount)`, given the
oracle of per-attempt outcomes (`outcomes n` is what the attempt with
counter value `n` observes).  Each invocation calls `discoverAgents`
exactly once; it schedules `discoverAgentsWithRetry(retryCount + 1)` only
when the attempt found zero agents (or threw) and
`retryCount < MAX_RETRIES`.  The `setTimeout` delays merely sequence the
cooperative invocations and are dropped.  Lean accepts this definition as
total, which is the termination half of the discovery bound. -/
def discoverAgentsWithRetryCalls (outcomes : Nat → DiscoveryOutcome)
    (retryCount : Nat) : Nat :=
  match outcomes retryCount with
  | DiscoveryOutcome.ok n =>
    if h : n = 0 ∧ retryCount < MAX_RETRIES then
      1 + discoverAgentsWithRetryCalls outcomes (retryCount + 1)
    else 1
  | DiscoveryOutcome.error =>
    if h : retryCount < MAX_RETRIES then
      1 + discoverAgentsWithRetryCalls outcomes (retryCount + 1)
    else 1
termination_by MAX_RETRIES + 1 - retryCount
decreasing_by
  all_goals simp only [MAX_RETRIES] at *
  · omega
  · omega

/-! ### OpenAIService.selectAgentForQuery (openai.service.ts)

The chat-completion call is abstracted as `llm : Except String String`:
`Except.ok content` is `response.choices[0]?.message?.content ?? ''` and
`Except.error` a rejected API call (the `catch` branch).  The `query`
only feeds the prompt, never the control flow. -/

/-- The agent summaries handed to `selectAgentForQuery` (its
`agents` parameter type). -/
structure RoutingSkill where
  name : String
  description : String
deriving DecidableEq, Repr

/-- An element of the `agents` array parameter of `selectAgentForQuery`. -/
structure RoutingAgent where
  name : String
  description : String
  skills : List RoutingSkill
deriving DecidableEq, Repr

/-- The fuzzy matcher inside `selectAgentForQuery`:
`agent.name.toLowerCase().includes(selected.toLowerCase()) ||
selected.toLowerCase().includes(agent.name.toLowerCase())`. -/
def fuzzyNameMatch (selectedAgentName : String) (agent : RoutingAgent) :
    Bool :=
  jsIncludes (jsToLower agent.name) (jsToLower selectedAgentName) ||
    jsIncludes (jsToLower selectedAgentName) (jsToLower agent.name)

/-- `selectAgentForQuery(query, agents)`: `''` on an empty list,
`agents[0].name` for a singleton; otherwise the trimmed LLM output is
fuzzily matched against the listed names, defaulting to `agents[0].name`
on an empty response, a failed match, or a thrown LLM error. -/
def selectAgentForQuery (llm : Except String String) (_query : String)
    (agents : List RoutingAgent) : String :=
  match agents with
  | [] => ""
  | a0 :: rest =>
    if rest.isEmpty then a0.name
    else
      match llm with
      | Except.error _ => a0.name
      | Except.ok content =>
        let selectedAgentName := jsTrim content
        if selectedAgentName = "" then a0.name
        else
          match (a0 :: rest).find? (fuzzyNameMatch selectedAgentName) with
          | some matchedAgent => matchedAgent.name
          | none => a0.name

/-! ### OrchestratorService.findBestAgentForQuery -/

/-- The `agents.map(...)` projection the orchestrator hands to
`selectAgentForQuery` (`description || ''` on card and skills). -/
def toRoutingAgent (agent : AgentCard) : RoutingAgent :=
  { name := agent.name
    description := agent.description.getD ""
    skills := agent.skills.map fun skill =>
      { name := skill.name, description := skill.description.getD "" } }

/-- The keyword chain in the `catch` branch of `findBestAgentForQuery`
(Vuex terms, then Vue-core terms, then the first available agent).  In
this embedding no expression of the `try` block throws —
`selectAgentForQuery` swallows LLM failures internally — so
`findBestAgentForQuery` never reaches it; it is kept for completeness. -/
def findBestAgentLLMErrorFallback (reg : AgentRegistry) (query : String) :
    Option AgentCard :=
  let queryLower := jsToLower query
  if jsIncludes queryLower "vuex" ||
      jsIncludes queryLower "getter" ||
      jsIncludes queryLower "mutation" ||
      jsIncludes queryLower "action" ||
      jsIncludes queryLower "commit" ||
      jsIncludes queryLower "dispatch" ||
      (jsIncludes queryLower "state" && jsIncludes queryLower "management") ||
      (jsIncludes queryLower "state" && jsIncludes queryLower "store") then
    getAgentByName reg "Vuex A2A Agent"
  else if jsIncludes queryLower "component" ||
      jsIncludes queryLower "props" ||
      jsIncludes queryLower "directive" ||
      jsIncludes queryLower "lifecycle" ||
      jsIncludes queryLower "template" then
    getAgentByName reg "Vue Core A2A Agent"
  else
    match getAgents reg with
    | [] => none
    | a0 :: _ => some a0

/-- `findBestAgentForQuery(query)`: `undefined` on an empty registry, the
single agent outright when only one is registered; otherwise the name
picked by `selectAgentForQuery` is resolved through `getAgentByName` when
truthy, with `findAgentForQuery` as the falsy-name fallback. -/
def findBestAgentForQuery (reg : AgentRegistry)
    (llm : Except String String) (query : String) : Option AgentCard :=
  match getAgents reg with
  | [] => none
  | a0 :: rest =>
    if rest.isEmpty then some a0
    else
      let selectedAgentName := selectAgentForQuery llm query
        ((a0 :: rest).map toRoutingAgent)
      if selectedAgentName ≠ "" then getAgentByName reg selectedAgentName
      else findAgentForQuery reg query

/-! ### Heap-level model of the Task Store's artifact arrays

`addTaskArtifact` spreads the stored task record (`{ ...taskData.task }`,
a shallow copy: the `artifacts` field still points at the same JavaScript
array) and then mutates that array in place with
`task.artifacts.push(artifact)`.  To state this reference-level effect,
the model below gives artifact arrays an explicit heap: a task record
holds an index (`artifactsRef`) into a store-wide list of arrays, and
`viewArtifacts` is what any holder of a task record observes through its
`artifacts` field.  History arrays need no heap here: every history
mutation in the service happens on a freshly spread copy before it is
published, so histories behave as values. -/

namespace HeapModel

/-- A Task record as held in memory: like `Task`, with the `artifacts`
field as a reference into the artifact-array heap. -/
structure HTask where
  id : String
  sessionId : Option String := none
  status : TaskStatus
  history : List Message := []
  artifactsRef : Nat
  metadata : Option Metadata := none
deriving DecidableEq, Repr

/-- `TaskAndHistory` over heap-level task records. -/
structure HTaskAndHistory where
  task : HTask
  history : List Message
deriving DecidableEq, Repr

/-- A `TaskStoreService` together with the heap of artifact arrays its
task records point into (`arrays`, indexed by reference). -/
structure HeapStore where
  arrays : List (List Artifact)
  tasks : List (String × HTaskAndHistory)
deriving DecidableEq, Repr

/-- A fresh service: no tasks, no allocated arrays. -/
def hEmpty : HeapStore := ⟨[], []⟩

/-- The contents of the array a task record's `artifacts` field points
at — what a holder of the record observes. -/
def viewArtifacts (s : HeapStore) (t : HTask) : Option (List Artifact) :=
  s.arrays.get? t.artifactsRef

/-- `createOrGetTask` at heap level: a fresh task allocates a new empty
artifacts array (`artifacts: []`); an existing task is returned as
stored. -/
def hCreateOrGetTask (s : HeapStore) (taskId : String)
    (message : Option Message) (sessionId : Option String)
    (metadata : Option Metadata) (now : String) :
    HeapStore × HTaskAndHistory :=
  match mapGet s.tasks taskId with
  | some existing => (s, existing)
  | none =>
    let history : List Message :=
      match message with
      | some m => [m]
      | none => []
    let task : HTask :=
      { id := taskId
        sessionId := sessionId
        status :=
          { state := TaskState.submitted
            timestamp := now
            message := message }
        history := history
        artifactsRef := s.arrays.length
        metadata := metadata }
    let taskData : HTaskAndHistory := { task := task, history := history }
    (⟨s.arrays ++ [[]], mapSet s.tasks taskId taskData⟩, taskData)

/-- `getTask` at heap level. -/
def hGetTask (s : HeapStore) (taskId : String) : Option HTaskAndHistory :=
  mapGet s.tasks taskId

/-- `updateTaskStatus` at heap level: the spread `{ ...taskData.task }`
keeps `artifactsRef`; the history copy `[...taskData.history]` is a fresh
array, so histories stay value-like. -/
def hUpdateTaskStatus (s : HeapStore) (taskId : String) (state : TaskState)
    (message : Option Message) (now : String) :
    HeapStore × Option HTaskAndHistory :=
  match hGetTask s taskId with
  | none => (s, none)
  | some taskData =>
    let status : TaskStatus :=
      { state := state
        timestamp := now
        message :=
          match message with
          | some m => some m
          | none => taskData.task.status.message }
    let (task, history) :=
      match message with
      | some m =>
        let h := taskData.history ++ [m]
        ({ taskData.task with status := status, history := h }, h)
      | none => ({ taskData.task with status := status }, taskData.history)
    let updated : HTaskAndHistory := { task := task, history := history }
    (⟨s.arrays, mapSet s.tasks taskId updated⟩, some updated)

/-- `addTaskArtifact` at heap level: shallow-copies the stored record
(same `artifactsRef`; the `if (!task.artifacts)` re-initialisation never
fires, every stored record's reference being allocated at creation) and
pushes the artifact into the referenced array in place. -/
def hAddTaskArtifact (s : HeapStore) (taskId : String)
    (artifact : Artifact) : HeapStore × Option HTaskAndHistory :=
  match hGetTask s taskId with
  | none => (s, none)
  | some taskData =>
    let task := taskData.task
    let arrays := s.arrays.set task.artifactsRef
      ((s.arrays.getD task.artifactsRef []) ++ [artifact])
    let updated : HTaskAndHistory := { taskData with task := task }
    (⟨arrays, mapSet s.tasks taskId updated⟩, some updated)

end HeapModel

/-! ### Operation sequences over the Task Store

For the store-wide invariants, a run of the service is a list of its
mutating operations (the read-only `getTask` / `listTaskIds` do not
change the store) applied in order. -/

/-- One mutating Task Store operation. -/
inductive StoreOp
  | create (taskId : String) (message : Option Message)
      (sessionId : Option String) (metadata : Option Metadata)
      (now : String)
  | update (taskId : String) (state : TaskState)
      (message : Option Message) (now : String)
  | addArtifact (taskId : String) (artifact : Artifact)
  | delete (taskId : String)
deriving DecidableEq, Repr

/-- The store produced by one operation. -/
def applyOp (s : TaskStore) : StoreOp → TaskStore
  | StoreOp.create taskId message sessionId metadata now =>
    (createOrGetTask s taskId message sessionId metadata now).1
  | StoreOp.update taskId state message now =>
    (updateTaskStatus s taskId state message now).1
  | StoreOp.addArtifact taskId artifact =>
    (addTaskArtifact s taskId artifact).1
  | StoreOp.delete taskId => (deleteTask s taskId).1

/-- A run of the service: the operations applied left to right. -/
def runOps (s : TaskStore) (ops : List StoreOp) : TaskStore :=
  ops.foldl applyOp s

/-- The per-task portion of the store invariant: the `history` field of
the record coincides with the task's own `history`, and a non-null status
message is the last history element. -/
def GoodTD (td : TaskAndHistory) : Prop :=
  td.task.history = td.history ∧
    ∀ m, td.task.status.message = some m →
      td.task.history.getLast? = some m

/-- The store invariant: unique map keys and `GoodTD` for every stored
task. -/
def GoodStore (s : TaskStore) : Prop :=
  keysNodup s.tasks ∧ ∀ t td, getTask s t = some td → GoodTD td

/-- Registry well-formedness: every entry is keyed by its card's `name`
(both insertion paths execute `agents.set(card.name, card)`). -/
def RegistryWF (r : AgentRegistry) : Prop :=
  ∀ p ∈ r.agents, p.1 = p.2.name

/-! ### Concrete sample data for the closed witnesses -/

/-- A sample inbound user message. -/
def sampleUserMsg : Message :=
  { role := Role.user, parts := [Part.text "How do getters work?" none] }

/-- A sample agent response message. -/
def sampleAgentMsg : Message :=
  { role := Role.agent, parts := [Part.text "They derive state." none] }

/-- A store whose task `t1` was created with `sampleUserMsg` and then
driven to the terminal state `completed`. -/
def c1Store : TaskStore :=
  (updateTaskStatus
    (createOrGetTask emptyStore "t1" (some sampleUserMsg) none none "T0").1
    "t1" TaskState.completed (some sampleAgentMsg) "T1").1

/-- The record `c1Store` holds under `t1`. -/
def c1Td : TaskAndHistory :=
  { task :=
      { id := "t1"
        sessionId := none
        status :=
          { state := TaskState.completed
            message := some sampleAgentMsg
            timestamp := "T1" }
        history := [sampleUserMsg, sampleAgentMsg]
        artifacts := []
        metadata := none }
    history := [sampleUserMsg, sampleAgentMsg] }

/-- A store whose task `t1` is in the non-terminal state `working`. -/
def c4Store : TaskStore :=
  (updateTaskStatus
    (createOrGetTask emptyStore "t1" (some sampleUserMsg) none none "T0").1
    "t1" TaskState.working (some sampleAgentMsg) "T1").1

/-- The record `c4Store` holds under `t1`. -/
def c4Td : TaskAndHistory :=
  { task :=
      { id := "t1"
        sessionId := none
        status :=
          { state := TaskState.working
            message := some sampleAgentMsg
            timestamp := "T1" }
        history := [sampleUserMsg, sampleAgentMsg]
        artifacts := []
        metadata := none }
    history := [sampleUserMsg, sampleAgentMsg] }

/-- A `processMessage` implementation that throws `Error("boom")`. -/
def c3process : Message → String → Option String →
    Except ThrownError Message :=
  fun _ _ _ => Except.error (ThrownError.jsError "boom")

/-- The `tasks/send` parameters used by the failure-path witness. -/
def c3params : TaskSendParams :=
  { id := "t1", sessionId := none, message := sampleUserMsg
    metadata := none }

/-- The Vue Core card registered by the orchestrator's
`manuallyRegisterAgents` (skills abbreviated to their names and
descriptions trimmed; only `name` and `skills ≠ []` matter to the
verified properties). -/
def vueCoreCard : AgentCard :=
  { name := "Vue Core A2A Agent"
    description := some "Specialized agent for Vue.js core framework concepts"
    url := "http://localhost:3333/api/agents/a2a/vue-core"
    version := "1.0.0"
    capabilities :=
      { streaming := false
        pushNotifications := false
        stateTransitionHistory := true }
    defaultInputModes := some ["text"]
    defaultOutputModes := some ["text"]
    skills :=
      [{ name := "vue_core_knowledge"
         description := some "In-depth knowledge about Vue.js components" },
       { name := "vue_template_syntax"
         description := some "Expertise in Vue template syntax" },
       { name := "vue_component_lifecycle"
         description := some "Understanding of Vue component lifecycle hooks" }] }

/-- The Vuex card registered by the orchestrator's
`manuallyRegisterAgents`. -/
def vuexCard : AgentCard :=
  { name := "Vuex A2A Agent"
    description := some "Specialized agent for Vuex state management"
    url := "http://localhost:3333/api/agents/a2a/vuex"
    version := "1.0.0"
    capabilities :=
      { streaming := false
        pushNotifications := false
        stateTransitionHistory := true }
    defaultInputModes := some ["text"]
    defaultOutputModes := some ["text"]
    skills :=
      [{ name := "vuex_knowledge"
         description := some "Comprehensive knowledge about Vuex" },
       { name := "vuex_store_management"
         description := some "Expertise in Vuex store configuration" },
       { name := "vuex_data_flow"
         description := some "Understanding of Vuex state mutations" }] }

/-- A syntactically valid card whose `name` is the empty string: it
passes `isValidAgentCard` (`typeof '' === 'string'` and a non-empty
skills array), yet its name is falsy to the orchestrator's
`if (selectedAgentName)` test. -/
def emptyNameCard : AgentCard :=
  { name := ""
    description := some "card with an empty name"
    url := "http://localhost:9999/api/agents/a2a/anon"
    version := "1.0.0"
    capabilities :=
      { streaming := false
        pushNotifications := false
        stateTransitionHistory := false }
    skills := [{ name := "anon_skill", description := some "does things" }] }

/-- A second plainly-named card for the routing counterexample. -/
def helperCard : AgentCard :=
  { name := "Helper"
    description := some "a second agent"
    url := "http://localhost:9998/api/agents/a2a/helper"
    version := "1.0.0"
    capabilities :=
      { streaming := false
        pushNotifications := false
        stateTransitionHistory := false }
    skills := [{ name := "helper_skill", description := some "helps" }] }

/-- The registry holding the empty-named card and `helperCard` — the
state reached by the two `addAgent` calls of the counterexample. -/
def c5registry : AgentRegistry :=
  ⟨[("", emptyNameCard), ("Helper", helperCard)]⟩

/-- The registry as left by the orchestrator's `manuallyRegisterAgents`
(both specialist cards registered under their names). -/
def manualRegistry : AgentRegistry :=
  ⟨[("Vue Core A2A Agent", vueCoreCard), ("Vuex A2A Agent", vuexCard)]⟩

/-- The run creating task `t1` for the history-monotonicity witness. -/
def c6ops1 : List StoreOp :=
  [StoreOp.create "t1" (some sampleUserMsg) none none "T0"]

/-- The continuation of the run: a status update with a message and an
artifact append, neither of which deletes `t1`. -/
def c6ops2 : List StoreOp :=
  [StoreOp.update "t1" TaskState.completed (some sampleAgentMsg) "T1",
   StoreOp.addArtifact "t1"
     { name := some "agent_selection"
       parts := [Part.text "Selected agent: Vuex A2A Agent" none] }]

/-- The heap-level store after creating task `t1` on a fresh service. -/
def c9Store : HeapModel.HeapStore :=
  (HeapModel.hCreateOrGetTask HeapModel.hEmpty "t1" (some sampleUserMsg)
    none none "T0").1

/-- The Task record `c9Store` returned at creation time: its `artifacts`
field is reference 0 into the artifact heap. -/
def c9task : HeapModel.HTask :=
  { id := "t1"
    sessionId := none
    status :=
      { state := TaskState.submitted
        message := some sampleUserMsg
        timestamp := "T0" }
    history := [sampleUserMsg]
    artifactsRef := 0
    metadata := none }

/-- The stored record for `t1` in `c9Store`. -/
def c9td : HeapModel.HTaskAndHistory :=
  { task := c9task, history := [sampleUserMsg] }

/-- The artifact pushed by the aliasing witness. -/
def c9artifact : Artifact :=
  { name := some "agent_selection"
    parts := [Part.text "Selected agent: Vuex A2A Agent" none] }

/-- The two-agent summary list used by the LLM-clamping witness. -/
def c10agentA : RoutingAgent :=
  { name := "Vue Core A2A Agent", description := "core concepts"
    skills := [{ name := "vue_core_knowledge"
                 description := "components and templates" }] }

/-- Second agent summary for the LLM-clamping witness. -/
def c10agentB : RoutingAgent :=
  { name := "Vuex A2A Agent", description := "state management"
    skills := [{ name := "vuex_knowledge"
                 description := "stores and mutations" }] }

/-! ## Lemma library for the JavaScript Map model -/

theorem mapGet_mapSet_self (m : List (String × α)) (k : String) (v : α) :
    mapGet (mapSet m k v) k = some v := by
  induction m with
  | nil => simp [mapSet, mapGet]
  | cons p rest ih =>
    obtain ⟨k2, w⟩ := p
    by_cases h : k2 = k <;> simp [mapSet, mapGet, h, ih]

theorem mapGet_mapSet_ne (m : List (String × α)) (k k2 : String) (v : α)
    (h : k ≠ k2) : mapGet (mapSet m k v) k2 = mapGet m k2 := by
  induction m with
  | nil => simp [mapSet, mapGet, h]
  | cons p rest ih =>
    obtain ⟨k3, w⟩ := p
    by_cases h3 : k3 = k
    · subst h3
      simp [mapSet, mapGet, h]
    · simp only [mapSet, if_neg h3, mapGet]
      by_cases h4 : k3 = k2 <;> simp [h4, ih]

theorem mapGet_mapDelete_ne (m : List (String × α)) (k t : String)
    (h : t ≠ k) : mapGet (mapDelete m k) t = mapGet m t := by
  induction m with
  | nil => simp [mapDelete, mapGet]
  | cons p rest ih =>
    obtain ⟨k2, v⟩ := p
    by_cases h2 : k2 = k
    · subst h2
      simp [mapDelete, mapGet, Ne.symm h]
    · simp only [mapDelete, if_neg h2, mapGet]
      by_cases h3 : k2 = t <;> simp [h3, ih]

theorem mapGet_eq_none_iff (m : List (String × α)) (k : String) :
    mapGet m k = none ↔ k ∉ m.map Prod.fst := by
  induction m with
  | nil => simp [mapGet]
  | cons p rest ih =>
    obtain ⟨k2, v⟩ := p
    by_cases h : k2 = k
    · subst h
      simp [mapGet]
    · have hne : k ≠ k2 := fun hk => h hk.symm
      simp [mapGet, h, ih, hne]

theorem keysNodup_nil : keysNodup ([] : List (String × α)) := by
  simp [keysNodup]

theorem mapSet_keys (m : List (String × α)) (k : String) (v : α) :
    (mapSet m k v).map Prod.fst =
      if k ∈ m.map Prod.fst then m.map Prod.fst
      else m.map Prod.fst ++ [k] := by
  induction m with
  | nil => simp [mapSet]
  | cons p rest ih =>
    obtain ⟨k2, w⟩ := p
    by_cases h : k2 = k
    · subst h
      simp [mapSet]
    · simp only [mapSet, if_neg h, List.map_cons, ih]
      have hne : k ≠ k2 := fun hk => h hk.symm
      by_cases h2 : k ∈ rest.map Prod.fst <;> simp [h2, hne]

theorem keysNodup_mapSet (m : List (String × α)) (k : String) (v : α)
    (h : keysNodup m) : keysNodup (mapSet m k v) := by
  unfold keysNodup at *
  rw [mapSet_keys]
  by_cases hk : k ∈ m.map Prod.fst
  · simpa [hk]
  · simp only [hk, if_false]
    rw [List.nodup_append]
    refine ⟨h, List.nodup_singleton k, ?_⟩
    intro a ha hb
    simp at hb
    subst hb
    exact hk ha

theorem mapDelete_keys_sublist (m : List (String × α)) (k : String) :
    ((mapDelete m k).map Prod.fst).Sublist (m.map Prod.fst) := by
  induction m with
  | nil => simp [mapDelete]
  | cons p rest ih =>
    obtain ⟨k2, v⟩ := p
    by_cases h : k2 = k
    · subst h
      simp only [mapDelete, if_pos rfl, List.map_cons]
      exact (List.sublist_cons_self _ _)
    · simp only [mapDelete, if_neg h, List.map_cons]
      exact ih.cons₂ k2

theorem keysNodup_mapDelete (m : List (String × α)) (k : String)
    (h : keysNodup m) : keysNodup (mapDelete m k) :=
  List.Nodup.sublist (mapDelete_keys_sublist m k) h

theorem mapGet_mapDelete_self (m : List (String × α)) (k : String)
    (h : keysNodup m) : mapGet (mapDelete m k) k = none := by
  induction m with
  | nil => simp [mapDelete, mapGet]
  | cons p rest ih =>
    obtain ⟨k2, v⟩ := p
    unfold keysNodup at h
    simp only [List.map_cons, List.nodup_cons] at h
    by_cases h2 : k2 = k
    · subst h2
      simp only [mapDelete, if_pos rfl]
      rw [mapGet_eq_none_iff]
      exact h.1
    · simp only [mapDelete, if_neg h2, mapGet, if_neg h2]
      exact ih h.2

theorem mapGet_isSome_of_mem_keys (m : List (String × α)) (k : String)
    (h : k ∈ m.map Prod.fst) : (mapGet m k).isSome := by
  induction m with
  | nil => simp at h
  | cons p rest ih =>
    obtain ⟨k2, v⟩ := p
    by_cases h2 : k2 = k
    · simp [mapGet, h2]
    · simp only [List.map_cons, List.mem_cons] at h
      rcases h with h | h
      · exact absurd h.symm h2
      · simp only [mapGet, if_neg h2]
        exact ih h

/-! ## Lemma library for the Task Store operations -/

theorem createOrGetTask_present (s : TaskStore) (taskId : String)
    (message : Option Message) (sessionId : Option String)
    (metadata : Option Metadata) (now : String) (td : TaskAndHistory)
    (h : getTask s taskId = some td) :
    createOrGetTask s taskId message sessionId metadata now = (s, td) := by
  unfold createOrGetTask
  unfold getTask at h
  rw [h]

theorem createOrGetTask_absent (s : TaskStore) (taskId : String)
    (message : Option Message) (sessionId : Option String)
    (metadata : Option Metadata) (now : String)
    (h : getTask s taskId = none) :
    createOrGetTask s taskId message sessionId metadata now =
      (⟨mapSet s.tasks taskId (newTaskData taskId message sessionId metadata now)⟩,
        newTaskData taskId message sessionId metadata now) := by
  unfold createOrGetTask newTaskData
  unfold getTask at h
  rw [h]

theorem updateTaskStatus_absent (s : TaskStore) (taskId : String)
    (state : TaskState) (message : Option Message) (now : String)
    (h : getTask s taskId = none) :
    updateTaskStatus s taskId state message now = (s, none) := by
  unfold updateTaskStatus
  rw [h]

theorem updateTaskStatus_msg (s : TaskStore) (taskId : String)
    (state : TaskState) (m : Message) (now : String) (td : TaskAndHistory)
    (h : getTask s taskId = some td) :
    updateTaskStatus s taskId state (some m) now =
      (⟨mapSet s.tasks taskId
          { task :=
              { td.task with
                status :=
                  { state := state, timestamp := now, message := some m }
                history := td.history ++ [m] }
            history := td.history ++ [m] }⟩,
        some
          { task :=
              { td.task with
                status :=
                  { state := state, timestamp := now, message := some m }
                history := td.history ++ [m] }
            history := td.history ++ [m] }) := by
  unfold updateTaskStatus
  rw [h]

theorem updateTaskStatus_nomsg (s : TaskStore) (taskId : String)
    (state : TaskState) (now : String) (td : TaskAndHistory)
    (h : getTask s taskId = some td) :
    updateTaskStatus s taskId state none now =
      (⟨mapSet s.tasks taskId
          { task :=
              { td.task with
                status :=
                  { state := state, timestamp := now
                    message := td.task.status.message } }
            history := td.history }⟩,
        some
          { task :=
              { td.task with
                status :=
                  { state := state, timestamp := now
                    message := td.task.status.message } }
            history := td.history }) := by
  unfold updateTaskStatus
  rw [h]

theorem addTaskArtifact_absent (s : TaskStore) (taskId : String)
    (artifact : Artifact) (h : getTask s taskId = none) :
    addTaskArtifact s taskId artifact = (s, none) := by
  unfold addTaskArtifact
  rw [h]

theorem addTaskArtifact_present (s : TaskStore) (taskId : String)
    (artifact : Artifact) (td : TaskAndHistory)
    (h : getTask s taskId = some td) :
    addTaskArtifact s taskId artifact =
      (⟨mapSet s.tasks taskId
          { td with task :=
              { td.task with
                artifacts := td.task.artifacts ++ [artifact] } }⟩,
        some
          { td with task :=
              { td.task with
                artifacts := td.task.artifacts ++ [artifact] } }) := by
  unfold addTaskArtifact
  rw [h]

theorem getTask_mapSet_self (s : TaskStore) (taskId : String)
    (td : TaskAndHistory) :
    getTask ⟨mapSet s.tasks taskId td⟩ taskId = some td :=
  mapGet_mapSet_self s.tasks taskId td

theorem getTask_mapSet_ne (s : TaskStore) (taskId t : String)
    (td : TaskAndHistory) (h : taskId ≠ t) :
    getTask ⟨mapSet s.tasks taskId td⟩ t = getTask s t :=
  mapGet_mapSet_ne s.tasks taskId t td h

/-! ## The store invariant and history monotonicity -/

theorem goodStore_empty : GoodStore emptyStore := by
  refine ⟨keysNodup_nil, ?_⟩
  intro t td h
  simp [getTask, emptyStore, mapGet] at h

theorem goodTD_newTaskData (taskId : String) (message : Option Message)
    (sessionId : Option String) (metadata : Option Metadata)
    (now : String) :
    GoodTD (newTaskData taskId message sessionId metadata now) := by
  constructor
  · cases message <;> simp [newTaskData]
  · intro m hm
    cases message with
    | none => simp [newTaskData] at hm
    | some m0 =>
      simp [newTaskData] at hm ⊢
      exact hm

theorem goodStore_applyOp (s : TaskStore) (op : StoreOp)
    (h : GoodStore s) : GoodStore (applyOp s op) := by
  obtain ⟨hkeys, htasks⟩ := h
  cases op with
  | create taskId message sessionId metadata now =>
    cases hg : getTask s taskId with
    | some td =>
      simp only [applyOp,
        createOrGetTask_present s taskId message sessionId metadata now td hg]
      exact ⟨hkeys, htasks⟩
    | none =>
      simp only [applyOp,
        createOrGetTask_absent s taskId message sessionId metadata now hg]
      refine ⟨keysNodup_mapSet _ _ _ hkeys, ?_⟩
      intro t td2 h2
      by_cases ht : taskId = t
      · subst ht
        rw [getTask_mapSet_self] at h2
        cases h2
        exact goodTD_newTaskData taskId message sessionId metadata now
      · rw [getTask_mapSet_ne s taskId t _ ht] at h2
        exact htasks t td2 h2
  | update taskId state message now =>
    cases hg : getTask s taskId with
    | none =>
      simp only [applyOp, updateTaskStatus_absent s taskId state message now hg]
      exact ⟨hkeys, htasks⟩
    | some td =>
      have hgood := htasks taskId td hg
      cases message with
      | some m =>
        simp only [applyOp, updateTaskStatus_msg s taskId state m now td hg]
        refine ⟨keysNodup_mapSet _ _ _ hkeys, ?_⟩
        intro t td2 h2
        by_cases ht : taskId = t
        · subst ht
          rw [getTask_mapSet_self] at h2
          cases h2
          refine ⟨rfl, ?_⟩
          intro m2 hm2
          simp at hm2
          subst hm2
          simp
        · rw [getTask_mapSet_ne s taskId t _ ht] at h2
          exact htasks t td2 h2
      | none =>
        simp only [applyOp, updateTaskStatus_nomsg s taskId state now td hg]
        refine ⟨keysNodup_mapSet _ _ _ hkeys, ?_⟩
        intro t td2 h2
        by_cases ht : taskId = t
        · subst ht
          rw [getTask_mapSet_self] at h2
          cases h2
          refine ⟨hgood.1, ?_⟩
          intro m2 hm2
          simp at hm2
          exact hgood.2 m2 hm2
        · rw [getTask_mapSet_ne s taskId t _ ht] at h2
          exact htasks t td2 h2
  | addArtifact taskId artifact =>
    cases hg : getTask s taskId with
    | none =>
      simp only [applyOp, addTaskArtifact_absent s taskId artifact hg]
      exact ⟨hkeys, htasks⟩
    | some td =>
      have hgood := htasks taskId td hg
      simp only [applyOp, addTaskArtifact_present s taskId artifact td hg]
      refine ⟨keysNodup_mapSet _ _ _ hkeys, ?_⟩
      intro t td2 h2
      by_cases ht : taskId = t
      · subst ht
        rw [getTask_mapSet_self] at h2
        cases h2
        exact ⟨hgood.1, hgood.2⟩
      · rw [getTask_mapSet_ne s taskId t _ ht] at h2
        exact htasks t td2 h2
  | delete taskId =>
    by_cases hh : mapHas s.tasks taskId
    · simp only [applyOp, deleteTask, if_pos hh]
      refine ⟨keysNodup_mapDelete _ _ hkeys, ?_⟩
      intro t td2 h2
      by_cases ht : t = taskId
      · subst ht
        unfold getTask at h2
        simp only at h2
        rw [mapGet_mapDelete_self s.tasks t hkeys] at h2
        cases h2
      · unfold getTask at h2
        simp only at h2
        rw [mapGet_mapDelete_ne s.tasks taskId t ht] at h2
        exact htasks t td2 h2
    · simp only [applyOp, deleteTask, if_neg hh]
      exact ⟨hkeys, htasks⟩

theorem goodStore_runOps (ops : List StoreOp) (s : TaskStore)
    (h : GoodStore s) : GoodStore (runOps s ops) := by
  induction ops generalizing s with
  | nil => exact h
  | cons op rest ih =>
    exact ih (applyOp s op) (goodStore_applyOp s op h)

theorem applyOp_history_mono (s : TaskStore) (op : StoreOp) (t : String)
    (hop : op ≠ StoreOp.delete t) (hgood : GoodStore s)
    (td : TaskAndHistory) (h : getTask s t = some td) :
    ∃ td2, getTask (applyOp s op) t = some td2 ∧
      td.task.history.length ≤ td2.task.history.length := by
  obtain ⟨hkeys, htasks⟩ := hgood
  cases op with
  | create taskId message sessionId metadata now =>
    cases hg : getTask s taskId with
    | some td3 =>
      simp only [applyOp,
        createOrGetTask_present s taskId message sessionId metadata now td3 hg]
      exact ⟨td, h, le_refl _⟩
    | none =>
      simp only [applyOp,
        createOrGetTask_absent s taskId message sessionId metadata now hg]
      have ht : taskId ≠ t := by
        intro he
        rw [he, h] at hg
        cases hg
      rw [getTask_mapSet_ne s taskId t _ ht]
      exact ⟨td, h, le_refl _⟩
  | update taskId state message now =>
    cases hg : getTask s taskId with
    | none =>
      simp only [applyOp, updateTaskStatus_absent s taskId state message now hg]
      exact ⟨td, h, le_refl _⟩
    | some td3 =>
      by_cases ht : taskId = t
      · subst ht
        rw [h] at hg
        cases hg
        have heq := (htasks taskId td h).1
        cases message with
        | some m =>
          simp only [applyOp, updateTaskStatus_msg s taskId state m now td h]
          rw [getTask_mapSet_self]
          refine ⟨_, rfl, ?_⟩
          simp [heq]
        | none =>
          simp only [applyOp, updateTaskStatus_nomsg s taskId state now td h]
          rw [getTask_mapSet_self]
          exact ⟨_, rfl, le_refl _⟩
      · cases message with
        | some m =>
          simp only [applyOp, updateTaskStatus_msg s taskId state m now td3 hg]
          rw [getTask_mapSet_ne s taskId t _ ht]
          exact ⟨td, h, le_refl _⟩
        | none =>
          simp only [applyOp, updateTaskStatus_nomsg s taskId state now td3 hg]
          rw [getTask_mapSet_ne s taskId t _ ht]
          exact ⟨td, h, le_refl _⟩
  | addArtifact taskId artifact =>
    cases hg : getTask s taskId with
    | none =>
      simp only [applyOp, addTaskArtifact_absent s taskId artifact hg]
      exact ⟨td, h, le_refl _⟩
    | some td3 =>
      simp only [applyOp, addTaskArtifact_present s taskId artifact td3 hg]
      by_cases ht : taskId = t
      · subst ht
        rw [h] at hg
        cases hg
        rw [getTask_mapSet_self]
        exact ⟨_, rfl, le_refl _⟩
      · rw [getTask_mapSet_ne s taskId t _ ht]
        exact ⟨td, h, le_refl _⟩
  | delete taskId =>
    have ht : t ≠ taskId := by
      intro he
      exact hop (by rw [he])
    by_cases hh : mapHas s.tasks taskId
    · simp only [applyOp, deleteTask, if_pos hh]
      unfold getTask
      simp only
      rw [mapGet_mapDelete_ne s.tasks taskId t ht]
      exact ⟨td, h, le_refl _⟩
    · simp only [applyOp, deleteTask, if_neg hh]
      exact ⟨td, h, le_refl _⟩

theorem runOps_history_mono (ops : List StoreOp) (s : TaskStore)
    (t : String) (hops : ∀ op ∈ ops, op ≠ StoreOp.delete t)
    (hgood : GoodStore s) (td : TaskAndHistory)
    (h : getTask s t = some td) :
    ∃ td2, getTask (runOps s ops) t = some td2 ∧
      td.task.history.length ≤ td2.task.history.length := by
  induction ops generalizing s td with
  | nil => exact ⟨td, h, le_refl _⟩
  | cons op rest ih =>
    obtain ⟨td2, h2, hle⟩ := applyOp_history_mono s op t
      (hops op (List.mem_cons_self op rest)) hgood td h
    obtain ⟨td3, h3, hle3⟩ := ih (applyOp s op)
      (fun op2 hm => hops op2 (List.mem_cons_of_mem op hm))
      (goodStore_applyOp s op hgood) td2 h2
    exact ⟨td3, h3, le_trans hle hle3⟩

/-! ## Lemma library for agent selection and the registry -/

theorem selectAgentForQuery_name_mem (llm : Except String String)
    (query : String) (agents : List RoutingAgent) (h : agents ≠ []) :
    selectAgentForQuery llm query agents ∈ agents.map RoutingAgent.name := by
  cases agents with
  | nil => exact absurd rfl h
  | cons a0 rest =>
    unfold selectAgentForQuery
    by_cases hr : rest.isEmpty
    · simp [hr]
    · simp only [if_neg hr]
      cases llm with
      | error e => simp
      | ok content =>
        by_cases he : jsTrim content = ""
        · simp [he]
        · simp only [if_neg he]
          cases hf : (a0 :: rest).find? (fuzzyNameMatch (jsTrim content)) with
          | none => simp
          | some matched =>
            simp only
            exact List.mem_map_of_mem RoutingAgent.name
              (List.mem_of_find?_eq_some hf)

theorem mem_mapSet (m : List (String × α)) (k : String) (v : α) :
    ∀ p ∈ mapSet m k v, p ∈ m ∨ p = (k, v) := by
  induction m with
  | nil =>
    intro p hp
    rw [mapSet] at hp
    rcases List.mem_cons.mp hp with hp2 | hp2
    · right; exact hp2
    · exact absurd hp2 (List.not_mem_nil p)
  | cons q rest ih =>
    obtain ⟨k2, w⟩ := q
    intro p hp
    by_cases h2 : k2 = k
    · subst h2
      rw [mapSet, if_pos rfl] at hp
      rcases List.mem_cons.mp hp with hp2 | hp2
      · right; exact hp2
      · left; exact List.mem_cons_of_mem _ hp2
    · rw [mapSet, if_neg h2] at hp
      rcases List.mem_cons.mp hp with hp2 | hp2
      · left; rw [hp2]; exact List.mem_cons_self _ _
      · rcases ih p hp2 with hi | hi
        · left; exact List.mem_cons_of_mem _ hi
        · right; exact hi

theorem registryWF_empty : RegistryWF emptyRegistry := by
  intro p hp
  simp [emptyRegistry] at hp

theorem registryWF_addAgent (r r2 : AgentRegistry) (card : AgentCard)
    (hwf : RegistryWF r) (h : addAgent r card = Except.ok r2) :
    RegistryWF r2 := by
  unfold addAgent at h
  by_cases hv : isValidAgentCard card
  · rw [if_pos hv] at h
    cases h
    intro p hp
    rcases mem_mapSet r.agents card.name card p hp with hi | hi
    · exact hwf p hi
    · rw [hi]
  · rw [if_neg hv] at h
    cases h

theorem get?_set_self_of_some (l : List α) (n : Nat) (x y : α)
    (h : l.get? n = some y) : (l.set n x).get? n = some x := by
  induction l generalizing n with
  | nil => simp [List.get?] at h
  | cons a rest ih =>
    cases n with
    | zero => rfl
    | succ n2 =>
      simp only [List.set, List.get?] at h ⊢
      exact ih n2 h

theorem getD_of_get?_some (l : List α) (n : Nat) (d y : α)
    (h : l.get? n = some y) : l.getD n d = y := by
  induction l generalizing n with
  | nil => simp [List.get?] at h
  | cons a rest ih =>
    cases n with
    | zero =>
      simp only [List.get?] at h
      cases h
      rfl
    | succ n2 =>
      simp only [List.get?] at h
      simp only [List.getD_cons_succ]
      exact ih n2 h

theorem updateTaskStatus_msg_ex (s : TaskStore) (taskId : String)
    (state : TaskState) (m : Message) (now : String) (td : TaskAndHistory)
    (h : getTask s taskId = some td) :
    ∃ u, updateTaskStatus s taskId state (some m) now =
        (⟨mapSet s.tasks taskId u⟩, some u) ∧
      getTask ⟨mapSet s.tasks taskId u⟩ taskId = some u ∧
      u.task.status.state = state ∧
      u.task.status.message = some m ∧
      u.task.status.timestamp = now ∧
      u.task.history = td.history ++ [m] ∧
      u.history = td.history ++ [m] :=
  ⟨_, updateTaskStatus_msg s taskId state m now td h,
    getTask_mapSet_self s taskId _, rfl, rfl, rfl, rfl, rfl⟩

theorem createOrGetTask_absent_ex (s : TaskStore) (taskId : String)
    (message : Option Message) (sessionId : Option String)
    (metadata : Option Metadata) (now : String)
    (h : getTask s taskId = none) :
    ∃ td, createOrGetTask s taskId message sessionId metadata now =
        (⟨mapSet s.tasks taskId td⟩, td) ∧
      getTask (⟨mapSet s.tasks taskId td⟩ : TaskStore) taskId = some td :=
  ⟨_, createOrGetTask_absent s taskId message sessionId metadata now h,
    getTask_mapSet_self s taskId _⟩

/-! ## The claims -/

/-- Claim C1 (counterexample).  The claim says the Store's own logic permits
no state transition out of a terminal state.  Concretely: a task is driven
to the terminal state `completed`, and a subsequent
`updateTaskStatus(taskId, working)` — a plain Store operation — moves its
`status.state` to `working`.  `updateTaskStatus` carries no terminal-state
guard. -/
theorem claim1_counterexample :
    ((getTask c1Store "t1").map fun td => td.task.status.state) =
      some TaskState.completed ∧
    ((getTask (updateTaskStatus c1Store "t1" TaskState.working none "T2").1
        "t1").map fun td => td.task.status.state) =
      some TaskState.working := by decide

/-- Claim C1 (amended).  Terminal-state monotonicity holds only at the
protocol layer: `handleTaskCancel` on a task whose `status.state` is
terminal returns `canceled: false` and leaves the store untouched; the
Store's own `updateTaskStatus`, by contrast, installs any requested
`newState` unconditionally (also out of a terminal state). -/
theorem claim1_amended (s : TaskStore) (taskId now : String)
    (td : TaskAndHistory) (h : getTask s taskId = some td) :
    (finalStates.contains td.task.status.state = true →
      handleTaskCancel s taskId now =
        (s, { id := taskId, canceled := false })) ∧
    (∀ state message,
      ((updateTaskStatus s taskId state message now).2.map
        fun u => u.task.status.state) = some state) := by
  constructor
  · intro hterm
    unfold handleTaskCancel
    rw [h]
    simp at hterm
    simp [hterm]
  · intro state message
    cases message with
    | some m => rw [updateTaskStatus_msg s taskId state m now td h]; rfl
    | none => rw [updateTaskStatus_nomsg s taskId state now td h]; rfl

/-- Witness for `claim1_amended`: the store `c1Store` holding task `t1`
in the terminal state `completed`. -/
theorem claim1_witness :
    getTask c1Store "t1" = some c1Td ∧
    finalStates.contains c1Td.task.status.state = true ∧
    handleTaskCancel c1Store "t1" "T2" =
      (c1Store, { id := "t1", canceled := false }) ∧
    ((updateTaskStatus c1Store "t1" TaskState.working none "T2").2.map
      fun u => u.task.status.state) = some TaskState.working := by
  have h : getTask c1Store "t1" = some c1Td := by decide
  have hc := claim1_amended c1Store "t1" "T2" c1Td h
  exact ⟨h, by decide, hc.1 (by decide), hc.2 TaskState.working none⟩

/-- Claim C2.  `createOrGetTask` is idempotent and total: on a stored
`taskId` it returns the stored record unchanged for *any* later
`message`/`sessionId`/`metadata` arguments and leaves the store
untouched (in particular the first call's `status.timestamp` survives);
on a fresh `taskId` it unconditionally stores and returns a Task in state
`submitted` with `history = [message]` when a message is given, else
`[]`. -/
theorem claim2_theorem (s : TaskStore) (taskId : String)
    (message : Option Message) (sessionId : Option String)
    (metadata : Option Metadata) (now : String) :
    (∀ td, getTask s taskId = some td →
      createOrGetTask s taskId message sessionId metadata now = (s, td)) ∧
    (getTask s taskId = none →
      ∃ td, createOrGetTask s taskId message sessionId metadata now =
          (⟨mapSet s.tasks taskId td⟩, td) ∧
        getTask (createOrGetTask s taskId message sessionId metadata now).1
          taskId = some td ∧
        td.task.id = taskId ∧
        td.task.status.state = TaskState.submitted ∧
        td.task.status.timestamp = now ∧
        td.task.status.message = message ∧
        td.task.sessionId = sessionId ∧
        td.task.metadata = metadata ∧
        td.task.artifacts = [] ∧
        td.task.history =
          (match message with | some m => [m] | none => []) ∧
        td.history = td.task.history) := by
  constructor
  · intro td h
    exact createOrGetTask_present s taskId message sessionId metadata now td h
  · intro h
    refine ⟨newTaskData taskId message sessionId metadata now,
      createOrGetTask_absent s taskId message sessionId metadata now h,
      ?_, rfl, rfl, rfl, rfl, rfl, rfl, rfl, ?_, ?_⟩
    · rw [createOrGetTask_absent s taskId message sessionId metadata now h]
      exact getTask_mapSet_self s taskId _
    · cases message <;> rfl
    · cases message <;> rfl

/-- Witness for `claim2_theorem`: a fresh create on the empty store,
followed by a second `createOrGetTask` with different arguments that
returns the first record and leaves the store unchanged. -/
theorem claim2_witness :
    getTask (createOrGetTask emptyStore "t1" (some sampleUserMsg) none none
        "T0").1 "t1" =
      some (newTaskData "t1" (some sampleUserMsg) none none "T0") ∧
    createOrGetTask
        (createOrGetTask emptyStore "t1" (some sampleUserMsg) none none
          "T0").1
        "t1" (some sampleAgentMsg) (some "other-session") none "T9" =
      ((createOrGetTask emptyStore "t1" (some sampleUserMsg) none none
          "T0").1,
        newTaskData "t1" (some sampleUserMsg) none none "T0") := by
  have h : getTask (createOrGetTask emptyStore "t1" (some sampleUserMsg)
      none none "T0").1 "t1" =
      some (newTaskData "t1" (some sampleUserMsg) none none "T0") := by
    decide
  exact ⟨h, (claim2_theorem _ "t1" (some sampleAgentMsg)
    (some "other-session") none "T9").1 _ h⟩

/-- Claim C3.  When `processMessage` throws `e` during `handleTaskSend`,
the task is transitioned to `failed` with a status message whose text is
`"Task failed: "` followed by `e`'s message text, that message is also
the last history element, the original `e` is re-thrown to the caller,
and the RPC layer surfaces it as an `InternalError` (−32603) response. -/
theorem claim3_theorem
    (process : Message → String → Option String → Except ThrownError Message)
    (s : TaskStore) (params : TaskSendParams) (e : ThrownError)
    (requestId nowCreate nowWorking nowFinal : String)
    (hproc : process params.message params.id params.sessionId =
      Except.error e) :
    (handleTaskSend process s params nowCreate nowWorking nowFinal).2 =
      Except.error e ∧
    ((getTask (handleTaskSend process s params nowCreate nowWorking
        nowFinal).1 params.id).map
      fun td => (td.task.status.state, td.task.status.message)) =
        some (TaskState.failed, some (failedMessage e)) ∧
    ((getTask (handleTaskSend process s params nowCreate nowWorking
        nowFinal).1 params.id).map
      fun td => td.task.history.getLast?) = some (some (failedMessage e)) ∧
    failedMessage e =
      { role := Role.agent
        parts := [Part.text ("Task failed: " ++ thrownText e) none]
        metadata := none } ∧
    (taskSendRpc process s params requestId nowCreate nowWorking
        nowFinal).2 =
      { jsonrpc := "2.0", id := requestId, result := none
        error := some { code := ErrorCode.InternalError
                        message := thrownText e, data := none } } := by
  have hmain : ∃ S u2,
      handleTaskSend process s params nowCreate nowWorking nowFinal =
        (S, Except.error e) ∧
      getTask S params.id = some u2 ∧
      u2.task.status.state = TaskState.failed ∧
      u2.task.status.message = some (failedMessage e) ∧
      u2.task.history.getLast? = some (failedMessage e) := by
    cases hg : getTask s params.id with
    | some td0 =>
      have h1 := createOrGetTask_present s params.id (some params.message)
        params.sessionId params.metadata nowCreate td0 hg
      obtain ⟨u1, hu1, hu1get, _, _, _, _, _⟩ :=
        updateTaskStatus_msg_ex s params.id TaskState.working
          workingMessage nowWorking td0 hg
      obtain ⟨u2, hu2, hu2get, hst, hmsg, _, hhist, _⟩ :=
        updateTaskStatus_msg_ex _ params.id TaskState.failed
          (failedMessage e) nowFinal u1 hu1get
      refine ⟨_, u2, ?_, hu2get, hst, hmsg, ?_⟩
      · simp only [handleTaskSend, h1, updateTaskStatusToWorking, hu1,
          hproc, updateTaskStatusToFailed, hu2]
      · rw [hhist]
        simp
    | none =>
      obtain ⟨td1, h1, hget1⟩ := createOrGetTask_absent_ex s params.id
        (some params.message) params.sessionId params.metadata nowCreate hg
      obtain ⟨u1, hu1, hu1get, _, _, _, _, _⟩ :=
        updateTaskStatus_msg_ex _ params.id TaskState.working
          workingMessage nowWorking td1 hget1
      obtain ⟨u2, hu2, hu2get, hst, hmsg, _, hhist, _⟩ :=
        updateTaskStatus_msg_ex _ params.id TaskState.failed
          (failedMessage e) nowFinal u1 hu1get
      refine ⟨_, u2, ?_, hu2get, hst, hmsg, ?_⟩
      · simp only [handleTaskSend, h1, updateTaskStatusToWorking, hu1,
          hproc, updateTaskStatusToFailed, hu2]
      · rw [hhist]
        simp
  obtain ⟨S, u2, heq, hget, hst, hmsg, hlast⟩ := hmain
  refine ⟨?_, ?_, ?_, rfl, ?_⟩
  · rw [heq]
  · rw [heq]
    simp [hget, hst, hmsg]
  · rw [heq]
    simp [hget, hlast]
  · simp only [taskSendRpc, heq]

/-- Witness for `claim3_theorem`: a `processMessage` that throws
`Error("boom")`, driven through `handleTaskSend` on the empty store. -/
theorem claim3_witness :
    (handleTaskSend c3process emptyStore c3params "T0" "T1" "T2").2 =
      Except.error (ThrownError.jsError "boom") ∧
    ((getTask (handleTaskSend c3process emptyStore c3params "T0" "T1"
        "T2").1 "t1").map
      fun td => (td.task.status.state, td.task.status.message)) =
        some (TaskState.failed,
          some (failedMessage (ThrownError.jsError "boom"))) ∧
    (taskSendRpc c3process emptyStore c3params "req-1" "T0" "T1" "T2").2 =
      { jsonrpc := "2.0", id := "req-1", result := none
        error := some { code := ErrorCode.InternalError
                        message := "boom", data := none } } := by
  have h := claim3_theorem c3process emptyStore c3params
    (ThrownError.jsError "boom") "req-1" "T0" "T1" "T2" rfl
  exact ⟨h.1, h.2.1, h.2.2.2.2⟩

/-- Claim C4.  `handleTaskCancel(taskId)` returns
`{id: taskId, canceled: false}` and leaves the store unchanged when the
task is absent or already in a final state
{`completed`, `failed`, `canceled`}; otherwise it moves the task's
`status.state` to `canceled` and returns `{id: taskId, canceled: true}`. -/
theorem claim4_theorem (s : TaskStore) (taskId now : String) :
    (getTask s taskId = none →
      handleTaskCancel s taskId now =
        (s, { id := taskId, canceled := false })) ∧
    (∀ td, getTask s taskId = some td →
      finalStates.contains td.task.status.state = true →
      handleTaskCancel s taskId now =
        (s, { id := taskId, canceled := false })) ∧
    (∀ td, getTask s taskId = some td →
      finalStates.contains td.task.status.state = false →
      (handleTaskCancel s taskId now).2 = { id := taskId, canceled := true } ∧
      ((getTask (handleTaskCancel s taskId now).1 taskId).map
        fun u => u.task.status.state) = some TaskState.canceled) := by
  refine ⟨?_, ?_, ?_⟩
  · intro h
    unfold handleTaskCancel
    rw [h]
  · intro td h hterm
    unfold handleTaskCancel
    rw [h]
    simp at hterm
    simp [hterm]
  · intro td h hterm
    unfold handleTaskCancel
    rw [h]
    simp at hterm
    simp [hterm, updateTaskStatus_nomsg s taskId TaskState.canceled now td h,
      getTask_mapSet_self]

/-- Witness for `claim4_theorem`: cancel of an absent task is a no-op;
cancel of the in-flight (`working`) task `t1` in `c4Store` flips it to
`canceled` with `canceled: true`. -/
theorem claim4_witness :
    handleTaskCancel emptyStore "missing" "T0" =
      (emptyStore, { id := "missing", canceled := false }) ∧
    (handleTaskCancel c4Store "t1" "T2").2 =
      { id := "t1", canceled := true } ∧
    ((getTask (handleTaskCancel c4Store "t1" "T2").1 "t1").map
      fun u => u.task.status.state) = some TaskState.canceled := by
  have h := (claim4_theorem c4Store "t1" "T2").2.2 c4Td (by decide) (by decide)
  exact ⟨(claim4_theorem emptyStore "missing" "T0").1 (by decide), h.1, h.2⟩

/-- Claim C5 (counterexample).  The claim promises some AgentCard for every
query whenever at least one agent is registered.  Both `addAgent` calls
below succeed (an empty-string `name` passes `isValidAgentCard`), leaving
two registered agents; with the LLM call failing, `selectAgentForQuery`
falls back to `agents[0].name = ""`, which is falsy to the orchestrator's
`if (selectedAgentName)` test, so it falls through to the registry's
`findAgentForQuery`, whose default lookup
`getAgentByName('Vue Core A2A Agent')` finds nothing — the routing
returns `undefined` although two agents are registered. -/
theorem claim5_counterexample :
    addAgent emptyRegistry emptyNameCard =
      Except.ok ⟨[("", emptyNameCard)]⟩ ∧
    addAgent ⟨[("", emptyNameCard)]⟩ helperCard = Except.ok c5registry ∧
    (getAgents c5registry).length = 2 ∧
    findBestAgentForQuery c5registry (Except.error "LLM unavailable")
      "hello" = none :=
  ⟨rfl, rfl, rfl, rfl⟩

/-- Claim C5 (amended).  For every query and every outcome of the LLM call
(success, empty/unparseable output, or thrown error), whenever at least
one agent is registered *and every registered agent has a non-empty
name*, `findBestAgentForQuery` returns some AgentCard.  (Registry
well-formedness — each entry keyed by its card's name — is an invariant
of both insertion paths, `agents.set(card.name, card)`; see
`registryWF_addAgent`.) -/
theorem claim5_amended (reg : AgentRegistry) (llm : Except String String)
    (query : String) (hwf : RegistryWF reg)
    (hnames : ∀ card ∈ getAgents reg, card.name ≠ "")
    (hne : getAgents reg ≠ []) :
    (findBestAgentForQuery reg llm query).isSome = true := by
  obtain ⟨a0, rest, hag⟩ : ∃ a0 rest, getAgents reg = a0 :: rest := by
    cases h2 : getAgents reg with
    | nil => exact absurd h2 hne
    | cons a0 rest => exact ⟨a0, rest, rfl⟩
  unfold findBestAgentForQuery
  simp only [hag]
  by_cases hr : rest.isEmpty
  · simp [hr]
  · simp only [hr, Bool.false_eq_true, if_false]
    have hmem := selectAgentForQuery_name_mem llm query
      ((a0 :: rest).map toRoutingAgent) (by simp)
    rw [List.map_map] at hmem
    have hcomp : (RoutingAgent.name ∘ toRoutingAgent) = AgentCard.name :=
      funext fun c => rfl
    rw [hcomp] at hmem
    obtain ⟨card, hcardmem, hcardname⟩ := List.mem_map.mp hmem
    have hcardreg : card ∈ getAgents reg := by
      rw [hag]
      exact hcardmem
    have hnn : selectAgentForQuery llm query
        ((a0 :: rest).map toRoutingAgent) ≠ "" := by
      rw [← hcardname]
      exact hnames card hcardreg
    rw [if_pos hnn]
    show (getAgentByName reg _).isSome = true
    unfold getAgentByName
    apply mapGet_isSome_of_mem_keys
    rw [← hcardname]
    obtain ⟨p, hp, hpcard⟩ := List.mem_map.mp
      (show card ∈ reg.agents.map Prod.snd from hcardreg)
    have hkey : p.1 = card.name := by
      rw [hwf p hp, hpcard]
    rw [← hkey]
    exact List.mem_map_of_mem Prod.fst hp

/-- Witness for `claim5_amended`: the manually-registered two-agent
registry, an LLM answer naming the Vuex agent, and a routing query. -/
theorem claim5_witness :
    (findBestAgentForQuery manualRegistry (Except.ok "Vuex A2A Agent")
      "how should I structure my store?").isSome = true :=
  claim5_amended manualRegistry (Except.ok "Vuex A2A Agent")
    "how should I structure my store?"
    (by unfold RegistryWF; decide) (by decide) (by decide)

/-- Claim C6 (counterexample).  The claim quantifies over *every* sequence
of Store operations; `deleteTask` followed by a fresh `createOrGetTask`
of the same id shrinks the task's history from length 1 back to 0, so
"history length never decreases" fails as stated. -/
theorem claim6_counterexample :
    ((getTask (runOps emptyStore
        [StoreOp.create "t1" (some sampleUserMsg) none none "T0"])
        "t1").map fun td => td.task.history.length) = some 1 ∧
    ((getTask (runOps emptyStore
        [StoreOp.create "t1" (some sampleUserMsg) none none "T0",
         StoreOp.delete "t1",
         StoreOp.create "t1" none none none "T1"])
        "t1").map fun td => td.task.history.length) = some 0 := by decide

/-- Claim C6 (amended).  Over any run from a fresh store: (a) as long as
the continuation never deletes the task, its history length never
decreases; (b) in every reachable store state, a non-null
`status.message` equals the last element of the task's history
(`updateTaskStatus` without a message retains the previous status
message and leaves history unchanged, preserving the property). -/
theorem claim6_amended (ops1 ops2 : List StoreOp) (t : String) :
    ((∀ op ∈ ops2, op ≠ StoreOp.delete t) →
      ∀ td, getTask (runOps emptyStore ops1) t = some td →
      ∃ td2, getTask (runOps emptyStore (ops1 ++ ops2)) t = some td2 ∧
        td.task.history.length ≤ td2.task.history.length) ∧
    (∀ td m, getTask (runOps emptyStore ops1) t = some td →
      td.task.status.message = some m →
      td.task.history.getLast? = some m) := by
  have hgood : GoodStore (runOps emptyStore ops1) :=
    goodStore_runOps ops1 emptyStore goodStore_empty
  constructor
  · intro hops td h
    have happ : runOps emptyStore (ops1 ++ ops2) =
        runOps (runOps emptyStore ops1) ops2 := by
      unfold runOps
      rw [List.foldl_append]
    rw [happ]
    exact runOps_history_mono ops2 (runOps emptyStore ops1) t hops hgood td h
  · intro td m h hm
    exact (hgood.2 t td h).2 m hm

/-- Witness for `claim6_amended`: task `t1` created with one history
entry; after a completing update and an artifact append (no delete), its
history is still at least as long, and the recorded status message is the
last history element. -/
theorem claim6_witness :
    getTask (runOps emptyStore c6ops1) "t1" =
      some (newTaskData "t1" (some sampleUserMsg) none none "T0") ∧
    1 ≤ ((getTask (runOps emptyStore (c6ops1 ++ c6ops2)) "t1").map
      fun td => td.task.history.length).getD 0 ∧
    (newTaskData "t1" (some sampleUserMsg) none none
      "T0").task.history.getLast? = some sampleUserMsg := by
  have h1 : getTask (runOps emptyStore c6ops1) "t1" =
      some (newTaskData "t1" (some sampleUserMsg) none none "T0") := by
    decide
  obtain ⟨td2, hg2, hle⟩ := (claim6_amended c6ops1 c6ops2 "t1").1
    (by decide) _ h1
  refine ⟨h1, ?_,
    (claim6_amended c6ops1 c6ops2 "t1").2 _ sampleUserMsg h1 (by decide)⟩
  rw [hg2]
  simpa using hle

/-- One unfolding of `discoverAgentsWithRetryCalls` when the attempt at
counter `r` resolves with `k` agents in the registry. -/
theorem discoverCalls_ok (outcomes : Nat → DiscoveryOutcome) (r k : Nat)
    (h : outcomes r = DiscoveryOutcome.ok k) :
    discoverAgentsWithRetryCalls outcomes r =
      if k = 0 ∧ r < MAX_RETRIES then
        1 + discoverAgentsWithRetryCalls outcomes (r + 1)
      else 1 := by
  rw [discoverAgentsWithRetryCalls.eq_def]
  simp only [h, dite_eq_ite]

/-- One unfolding of `discoverAgentsWithRetryCalls` when the attempt at
counter `r` throws. -/
theorem discoverCalls_error (outcomes : Nat → DiscoveryOutcome) (r : Nat)
    (h : outcomes r = DiscoveryOutcome.error) :
    discoverAgentsWithRetryCalls outcomes r =
      if r < MAX_RETRIES then
        1 + discoverAgentsWithRetryCalls outcomes (r + 1)
      else 1 := by
  rw [discoverAgentsWithRetryCalls.eq_def]
  simp only [h, dite_eq_ite]

/-- The per-attempt bound behind the discovery-retry claim: an invocation
chain entered at counter `r ≤ MAX_RETRIES` performs at most
`MAX_RETRIES + 1 - r` discovery calls. -/
theorem discoverCalls_bound (outcomes : Nat → DiscoveryOutcome) :
    ∀ (n r : Nat), MAX_RETRIES - r ≤ n → r ≤ MAX_RETRIES →
      discoverAgentsWithRetryCalls outcomes r ≤ MAX_RETRIES + 1 - r := by
  have hM : MAX_RETRIES = 5 := rfl
  intro n
  induction n with
  | zero =>
    intro r h1 h2
    rw [hM] at h1 h2 ⊢
    have hnlt : ¬ r < 5 := by omega
    cases houtcome : outcomes r with
    | ok k =>
      rw [discoverCalls_ok outcomes r k houtcome, hM]
      rw [if_neg fun hc => hnlt hc.2]
      omega
    | error =>
      rw [discoverCalls_error outcomes r houtcome, hM]
      rw [if_neg hnlt]
      omega
  | succ n ih =>
    intro r h1 h2
    rw [hM] at h1 h2 ⊢
    by_cases hlt : r < 5
    · have hrec := ih (r + 1) (by rw [hM]; omega) (by rw [hM]; omega)
      rw [hM] at hrec
      cases houtcome : outcomes r with
      | ok k =>
        rw [discoverCalls_ok outcomes r k houtcome, hM]
        by_cases hk : k = 0
        · rw [if_pos ⟨hk, hlt⟩]
          omega
        · rw [if_neg fun hc => hk hc.1]
          omega
      | error =>
        rw [discoverCalls_error outcomes r houtcome, hM]
        rw [if_pos hlt]
        omega
    · cases houtcome : outcomes r with
      | ok k =>
        rw [discoverCalls_ok outcomes r k houtcome, hM]
        rw [if_neg fun hc => hlt hc.2]
        omega
      | error =>
        rw [discoverCalls_error outcomes r houtcome, hM]
        rw [if_neg hlt]
        omega

/-- Claim C7.  Whatever each discovery attempt observes (zero agents found,
some agents found, or a thrown error — the `outcomes` oracle),
the invocation chain of `discoverAgentsWithRetry` entered at
`retryCount = 0` performs at most `MAX_RETRIES + 1 = 6` calls to
`discoverAgents`; termination itself is witnessed by
`discoverAgentsWithRetryCalls` being accepted as a total function (each
retry passes `retryCount + 1` and is scheduled only while
`retryCount < MAX_RETRIES`). -/
theorem claim7_theorem (outcomes : Nat → DiscoveryOutcome) :
    discoverAgentsWithRetryCalls outcomes 0 ≤ MAX_RETRIES + 1 ∧
    MAX_RETRIES + 1 = 6 := by
  refine ⟨?_, rfl⟩
  have h := discoverCalls_bound outcomes MAX_RETRIES 0 (by simp)
    (Nat.zero_le _)
  simpa using h

/-- Claim C8.  Keyword-fallback determinism: the query
`"how do I use Vuex getters"` contains the keyword `vuex` after
lower-casing, so `findAgentForQuery` resolves the name
`"Vuex A2A Agent"`; `"explain component lifecycle hooks"` matches none of
the Vuex keywords, so it resolves the default name
`"Vue Core A2A Agent"` — in any registry state, and in particular it
returns the card registered under those names when present. -/
theorem claim8_theorem (reg : AgentRegistry) :
    findAgentForQuery reg "how do I use Vuex getters" =
      getAgentByName reg "Vuex A2A Agent" ∧
    findAgentForQuery reg "explain component lifecycle hooks" =
      getAgentByName reg "Vue Core A2A Agent" ∧
    (∀ c, getAgentByName reg "Vuex A2A Agent" = some c →
      findAgentForQuery reg "how do I use Vuex getters" = some c) ∧
    (∀ c, getAgentByName reg "Vue Core A2A Agent" = some c →
      findAgentForQuery reg "explain component lifecycle hooks" =
        some c) := by
  have h1 : vuexQueryTest "how do I use Vuex getters" = true := by decide
  have h2 : vuexQueryTest "explain component lifecycle hooks" = false := by
    decide
  refine ⟨?_, ?_, ?_, ?_⟩
  · simp [findAgentForQuery, h1]
  · simp [findAgentForQuery, h2]
  · intro c hc
    simp [findAgentForQuery, h1, hc]
  · intro c hc
    simp [findAgentForQuery, h2, hc]

/-- Witness for `claim8_theorem`: the manually-registered registry, where
both named agents exist. -/
theorem claim8_witness :
    getAgentByName manualRegistry "Vuex A2A Agent" = some vuexCard ∧
    findAgentForQuery manualRegistry "how do I use Vuex getters" =
      some vuexCard ∧
    getAgentByName manualRegistry "Vue Core A2A Agent" =
      some vueCoreCard ∧
    findAgentForQuery manualRegistry "explain component lifecycle hooks" =
      some vueCoreCard := by
  have h := claim8_theorem manualRegistry
  exact ⟨by decide, h.2.2.1 vuexCard (by decide), by decide,
    h.2.2.2 vueCoreCard (by decide)⟩

/-- Claim C9.  `addTaskArtifact` copies the stored task record only
shallowly (`{ ...taskData.task }`) and pushes the artifact into the
referenced artifacts array in place, so any Task record previously
handed out for that id whose `artifacts` field shares the array (same
`artifactsRef` — as is the case for the records returned by
`createOrGetTask`, `getTask`, and `updateTaskStatus`, the last of which
provably preserves the reference) observes the pushed artifact as the
last element of its own `artifacts`. -/
theorem claim9_theorem (s : HeapModel.HeapStore) (taskId : String)
    (artifact : Artifact) (td : HeapModel.HTaskAndHistory)
    (t0 : HeapModel.HTask) (arts : List Artifact)
    (hget : HeapModel.hGetTask s taskId = some td)
    (hshare : t0.artifactsRef = td.task.artifactsRef)
    (hview : HeapModel.viewArtifacts s t0 = some arts) :
    HeapModel.viewArtifacts (HeapModel.hAddTaskArtifact s taskId
      artifact).1 t0 = some (arts ++ [artifact]) ∧
    ((HeapModel.hAddTaskArtifact s taskId artifact).2.map
      fun u => u.task.artifactsRef) = some td.task.artifactsRef ∧
    (∀ state message now,
      ((HeapModel.hUpdateTaskStatus s taskId state message now).2.map
        fun u => u.task.artifactsRef) = some td.task.artifactsRef) := by
  unfold HeapModel.viewArtifacts at hview
  refine ⟨?_, ?_, ?_⟩
  · unfold HeapModel.hAddTaskArtifact
    rw [hget]
    unfold HeapModel.viewArtifacts
    simp only
    rw [hshare]
    rw [getD_of_get?_some s.arrays td.task.artifactsRef [] arts
      (by rw [← hshare]; exact hview)]
    exact get?_set_self_of_some s.arrays td.task.artifactsRef
      (arts ++ [artifact]) arts (by rw [← hshare]; exact hview)
  · unfold HeapModel.hAddTaskArtifact
    rw [hget]
    rfl
  · intro state message now
    unfold HeapModel.hUpdateTaskStatus
    rw [hget]
    cases message <;> rfl

/-- Witness for `claim9_theorem`: create `t1` on a fresh heap store (its
record is `c9td`, holding array reference 0), keep the returned task
object `c9task`, then `addTaskArtifact`; the kept object's view of its
artifacts gains the artifact. -/
theorem claim9_witness :
    HeapModel.hGetTask c9Store "t1" = some c9td ∧
    HeapModel.viewArtifacts c9Store c9task = some [] ∧
    HeapModel.viewArtifacts (HeapModel.hAddTaskArtifact c9Store "t1"
      c9artifact).1 c9task = some ([] ++ [c9artifact]) ∧
    ((HeapModel.hAddTaskArtifact c9Store "t1" c9artifact).2.map
      fun u => u.task.artifactsRef) = some c9td.task.artifactsRef := by
  have h := claim9_theorem c9Store "t1" c9artifact c9td c9task []
    (by decide) (by decide) (by decide)
  exact ⟨by decide, by decide, h.1, h.2.1⟩

/-- Claim C10.  For every non-empty agents list and every outcome of the
LLM call, `selectAgentForQuery` returns the exact `name` of some listed
agent and never throws (it is total): the trimmed LLM text is fuzzily
matched (case-insensitive substring in either direction) against the
listed names, and an empty output, a match failure, or a thrown LLM error
all yield the first agent's name. -/
theorem claim10_theorem (llm : Except String String) (query : String)
    (a0 : RoutingAgent) (rest : List RoutingAgent) :
    selectAgentForQuery llm query (a0 :: rest) ∈
      (a0 :: rest).map RoutingAgent.name ∧
    (∀ err, selectAgentForQuery (Except.error err) query (a0 :: rest) =
      a0.name) ∧
    (∀ content, jsTrim content = "" →
      selectAgentForQuery (Except.ok content) query (a0 :: rest) =
        a0.name) ∧
    (∀ content,
      (a0 :: rest).find? (fuzzyNameMatch (jsTrim content)) = none →
      selectAgentForQuery (Except.ok content) query (a0 :: rest) =
        a0.name) ∧
    (∀ content matched, rest ≠ [] → jsTrim content ≠ "" →
      (a0 :: rest).find? (fuzzyNameMatch (jsTrim content)) =
        some matched →
      selectAgentForQuery (Except.ok content) query (a0 :: rest) =
        matched.name) := by
  refine ⟨selectAgentForQuery_name_mem llm query (a0 :: rest) (by simp),
    ?_, ?_, ?_, ?_⟩
  · intro err
    unfold selectAgentForQuery
    by_cases hr : rest.isEmpty <;> simp [hr]
  · intro content he
    unfold selectAgentForQuery
    by_cases hr : rest.isEmpty <;> simp [hr, he]
  · intro content hf
    unfold selectAgentForQuery
    by_cases hr : rest.isEmpty
    · simp [hr]
    · by_cases he : jsTrim content = ""
      · simp [hr, he]
      · simp [hr, he, hf]
  · intro content matched hrest he hf
    unfold selectAgentForQuery
    have hr : rest.isEmpty = false := by
      cases rest with
      | nil => exact absurd rfl hrest
      | cons b bs => rfl
    simp [hr, he, hf]

/-- Witness for `claim10_theorem`: two listed agents; an LLM answer
naming the Vuex agent (with stray whitespace) is clamped to its exact
listed name, while an LLM error, an all-whitespace answer, and an
unmatched answer each fall back to the first agent's name. -/
theorem claim10_witness :
    selectAgentForQuery (Except.error "rate limited") "q"
      [c10agentA, c10agentB] = c10agentA.name ∧
    selectAgentForQuery (Except.ok "  ") "q"
      [c10agentA, c10agentB] = c10agentA.name ∧
    selectAgentForQuery (Except.ok "Pinia Agent") "q"
      [c10agentA, c10agentB] = c10agentA.name ∧
    selectAgentForQuery (Except.ok " Vuex A2A Agent ") "q"
      [c10agentA, c10agentB] = c10agentB.name ∧
    selectAgentForQuery (Except.ok " Vuex A2A Agent ") "q"
      [c10agentA, c10agentB] ∈
      [c10agentA, c10agentB].map RoutingAgent.name := by
  have h1 := claim10_theorem (Except.error "rate limited") "q" c10agentA
    [c10agentB]
  have h2 := claim10_theorem (Except.ok " Vuex A2A Agent ") "q" c10agentA
    [c10agentB]
  exact ⟨h1.2.1 "rate limited", h1.2.2.1 "  " (by decide),
    h1.2.2.2.1 "Pinia Agent" (by decide),
    h2.2.2.2.2 " Vuex A2A Agent " c10agentB (by decide) (by decide)
      (by decide),
    h2.1⟩

end A2A
